import Mathlib

/-!
Shallow embedding of the digest-generation pipeline of `gh-daily-update`
(`amplify/backend/function/githubdailyupdatecb16306e/src/index.py`).

Python strings are modelled as Lean `String` (both are sequences of Unicode
code points, so `len` agrees with `String.length` and slicing agrees with
taking a prefix of the character list).  Python dates are modelled by their
ordinal day number as an `Int`: the source parses ISO timestamps to `date`
values and only ever subtracts them, and subtraction of dates is exactly
subtraction of ordinals.  The HTTP layer is modelled by passing the data a
request would return (a page function for the search endpoint, the review
state list for the per-PR reviews endpoint) as explicit inputs.
-/

namespace DailyUpdate

/-- Raw GitHub search item, keeping the fields the pipeline reads.
`assignees` collects the login of each entry of the `assignees` field
(absent or null becomes `[]`, matching Python truthiness); `pull_request`
is the truthiness of the pull-request marker; `reviews` holds the list of
review states that the secondary reviews request for this item returns;
`created_at` and `updated_at` are the ordinal days of the parsed dates. -/
structure RawIssue where
  url : String
  repository_url : String
  html_url : String
  title : String
  user_login : String
  assignees : List String
  assignee : Option String
  labels : List String
  comments : Nat
  created_at : Int
  updated_at : Int
  pull_request : Bool
  reviews : List String
deriving DecidableEq, Repr

/-- The consolidated record built by `format_issue` in the source. -/
structure ClassifiedIssue where
  repo : String
  title : String
  is_pr : Bool
  is_approved : Bool
  assignee : String
  comments : Nat
  open_since : Int
  last_updated : Int
  labels : String
  link : String
deriving DecidableEq, Repr

/-- One registered repository as read from the registry table: the fields
`repo`, `members`, `webhook` and `name` that `create_status_reports` uses. -/
structure Repo where
  id : String
  members : List String
  webhook : String
  name : String
deriving DecidableEq, Repr

/-- One element of the `status` list assembled by `create_status_reports`:
display name, webhook target, the run metadata and the rendered PR body
(the single `prs` key of the dictionary `format_by_repo` returns). -/
structure StatusEntry where
  repo : String
  webhook : String
  interval : String
  filters : String
  date : String
  prs : String
deriving DecidableEq, Repr

/-- The label exclusion set (a Python `set` literal in the source, kept here
in the literal order of the source text). -/
def FILTER_LABELS : List String :=
  [("feature-request"), ("enhancement"), ("bug"), ("pending-close-response-required")]

/-- Lookback window in weeks. -/
def TIME_INTERVAL : Nat := 4

/-- Source `days_ago`: humanizes a day count. -/
def days_ago (count : Int) : String :=
  if count == 0 then "today"
  else
    let suffix := if count == 1 then "day" else "days"
    toString count ++ " " ++ suffix ++ " ago"

/-- Source `pr_is_approved`: scans the review list returned by the reviews
endpoint for the pull request and reports whether any review has state
APPROVED (the loop breaks at the first hit, which is `List.any`).  The HTTP
request of the source is modelled by taking the returned review states as
the argument. -/
def pr_is_approved (reviews : List String) : Bool :=
  reviews.any (fun item => item == "APPROVED")

/-- Splitting a character list on a separator character, as Python
`str.split` does for a one-character separator (the only separator the
source uses): adjacent separators yield empty segments and the result is
never the empty list. -/
def split_on_char (c : Char) : List Char → List (List Char)
  | [] => [[]]
  | x :: xs =>
    let r := split_on_char c xs
    if x == c then [] :: r
    else
      match r with
      | [] => [[x]]
      | y :: ys => (x :: y) :: ys

/-- Source `issue_repo`: Python `repository_url.split("/")[-1]`, the last
`/`-separated segment of the repository URL.  `split_on_char` never returns
an empty list, so the default of `getLastD` is never used. -/
def issue_repo (repository_url : String) : String :=
  String.mk ((split_on_char (Char.ofNat 47) repository_url.data).getLastD [])

/-- Source `pr_id`: Python `pr_link.split("/")[-1]`, the last `/`-separated
segment of the API URL. -/
def pr_id (pr_link : String) : String :=
  String.mk ((split_on_char (Char.ofNat 47) pr_link.data).getLastD [])

/-- Source `truncate_item`: Python `item[:(max_length - 2)] + ".."` when the
item is longer than `max_length`; the slice takes the first
`max_length - 2` characters. -/
def truncate_item (item : String) (max_length : Nat) : String :=
  if item.length > max_length then String.mk (item.data.take (max_length - 2)) ++ ".."
  else item

/-- Source `get_issue_assignee`: comma-join the logins of a non-empty
`assignees` list, else the single `assignee` login, else the sentinel. -/
def get_issue_assignee (issue : RawIssue) : String :=
  if issue.assignees ≠ [] then String.intercalate (",") issue.assignees
  else
    match issue.assignee with
    | some a => a
    | none => "unassigned"

/-- Source `days_since`: days between the parsed timestamp and today,
on ordinal day numbers. -/
def days_since (issue_date : Int) (today : Int) : Int :=
  today - issue_date

/-- Source `get_issue_labels`: comma-space-join the label names of a
non-empty label list, else the empty string. -/
def get_issue_labels (issue : RawIssue) : String :=
  if issue.labels ≠ [] then String.intercalate (", ") issue.labels
  else ""

/-- Source `is_pr`: truthiness of the pull-request marker. -/
def is_pr (issue : RawIssue) : Bool :=
  issue.pull_request

/-- Source `format_issue`: classifies a raw record.  An approved pull
request yields the empty dictionary, modelled as `none`; the secondary
approval lookup is performed only for pull requests.  `today` threads the
module-level run date through the date arithmetic. -/
def format_issue (today : Int) (issue : RawIssue) : Option ClassifiedIssue :=
  let pr := is_pr issue
  let repo := issue_repo issue.repository_url
  let is_approved := if pr then pr_is_approved issue.reviews else false
  if pr && is_approved then none
  else some
    { repo := repo
      title := truncate_item issue.title 50
      is_pr := pr
      is_approved := is_approved
      assignee := get_issue_assignee issue
      comments := issue.comments
      open_since := days_since issue.created_at today
      last_updated := days_since issue.updated_at today
      labels := get_issue_labels issue
      link := issue.html_url }

/-- Source `pr_alerts`: glyph string for a pull request, concatenated in the
order time, unassigned, comments, action of the f-string. -/
def pr_alerts (issue : ClassifiedIssue) : String :=
  let time := if issue.last_updated > 2 || issue.open_since < 1 then "⏰" else ""
  let action := if issue.last_updated < 2 && issue.open_since > 7 then "🤔" else ""
  let unassigned := if issue.assignee == "unassigned" then "👤" else ""
  let comments := if issue.comments < 2 then "🔴" else ""
  time ++ unassigned ++ comments ++ action

/-- Source `issue_alerts`: glyph string for a plain issue. -/
def issue_alerts (issue : ClassifiedIssue) : String :=
  let unassigned := if issue.assignee == "unassigned" then "👤" else ""
  let comments := if issue.comments == 0 then "🔴" else ""
  let time := if issue.last_updated > 2 then "⏰" else ""
  let action := if issue.last_updated < 2 && issue.open_since > 7 then "🤔" else ""
  time ++ unassigned ++ comments ++ action

/-- One response of the search endpoint: its reported `total_count` and its
`items` list.  The item type is a parameter, as the fetcher never inspects
the items. -/
structure SearchResponse (α : Type) where
  total_count : Nat
  items : List α
deriving DecidableEq, Repr

/-- The `while` loop of `get_issues`, with the HTTP layer modelled by the
page function `api` (page number to response) and with an explicit request
counter in the result.  While fewer than `cap` items are accumulated the
next page is requested; a page with items is appended and the loop
continues, an empty page breaks out.  Every continuing iteration appends at
least one item, so the loop performs at most `cap` requests; the `fuel`
argument (instantiated with `cap + 1` by `get_issues`) therefore never runs
out before the loop of the source exits, and the recursion computes exactly
the loop. -/
def fetch_pages {α : Type} (api : Nat → SearchResponse α) (cap : Nat) :
    Nat → Nat → List α → List α × Nat
  | 0, _, issues => (issues, 0)
  | fuel + 1, page, issues =>
    if issues.length < cap then
      let r := api (page + 1)
      if r.items.isEmpty then (issues, 1)
      else
        let rec_result := fetch_pages api cap fuel (page + 1) (issues ++ r.items)
        (rec_result.1, rec_result.2 + 1)
    else (issues, 0)

/-- Source `get_issues`: requests the first page, and when the reported
total exceeds the page size keeps paging with the loop bound
`cap = max total_count 900`.  Returns the accumulated items together with
the number of search requests issued. -/
def get_issues {α : Type} (api : Nat → SearchResponse α) : List α × Nat :=
  let per_page := 100
  let r := api 1
  let total_count := r.total_count
  let issues := r.items
  if total_count > per_page then
    let cap := max total_count 900
    let looped := fetch_pages api cap (cap + 1) 1 issues
    (looped.1, looped.2 + 1)
  else (issues, 1)

/-- The body cap local to `format_by_repo`. -/
def MSG_MAX_LENGTH : Nat := 40000

/-- The comparison the Python key function `(assignee, is_pr)` induces:
lexicographic on the pair, strings compared by code point, `False < True`
for the booleans. -/
def issue_key_le (a b : ClassifiedIssue) : Bool :=
  decide (a.assignee < b.assignee) ||
    (decide (a.assignee = b.assignee) && (!a.is_pr || b.is_pr))

/-- The `sorted(issues, key=lambda k: (k[assignee], k[is_pr]))` call of
`format_by_repo`: Python `sorted` is a stable sort by the key, which is
`List.mergeSort` with the induced comparison. -/
def sorted_issues_by_assignee (issues : List ClassifiedIssue) : List ClassifiedIssue :=
  issues.mergeSort issue_key_le

/-- The f-string block rendered for one pull request inside the loop of
`format_by_repo`. -/
def render_pr_block (issue : ClassifiedIssue) : String :=
  let labels := if issue.labels ≠ "" then "(" ++ issue.labels ++ ")" else ""
  "---\n" ++ pr_alerts issue ++ " [" ++ issue.assignee ++ "] " ++ issue.title ++ "\n" ++
    toString issue.comments ++ " comments, created: " ++ days_ago issue.open_since ++
    ", updated: " ++ days_ago issue.last_updated ++ " " ++ labels ++ "\n" ++
    issue.link ++ "\n\n"

/-- The accumulation loop of `format_by_repo`: plain issues are passed over
(their branch is commented out in the source), a pull-request block that
would push the body past `MSG_MAX_LENGTH` breaks out of the loop, any other
pull-request block is appended. -/
def build_prs_txt : List ClassifiedIssue → String → String
  | [], prs_txt => prs_txt
  | issue :: rest, prs_txt =>
    if issue.is_pr then
      let pr := render_pr_block issue
      if pr.length + prs_txt.length > MSG_MAX_LENGTH then prs_txt
      else build_prs_txt rest (prs_txt ++ pr)
    else build_prs_txt rest prs_txt

/-- Source `format_by_repo`: sort, then accumulate pull-request blocks under
the length cap.  The source wraps the resulting text in a one-key
dictionary; the text is returned directly and becomes the `prs` field of
the status entry. -/
def format_by_repo (issues : List ClassifiedIssue) : String :=
  build_prs_txt (sorted_issues_by_assignee issues) ""

/-- Concatenation of the complete rendered blocks of a record list. -/
def concat_blocks (issues : List ClassifiedIssue) : String :=
  issues.foldr (fun issue s => render_pr_block issue ++ s) ""

/-- The list `repo_ids` of `create_status_reports`. -/
def repo_ids (repos : List Repo) : List String :=
  repos.map Repo.id

/-- Lookup in the comprehension-built dictionaries (`members_by_repo` and
friends): a Python dict comprehension keeps the value of the last item with
a given key, which is the first match in the reversed list.  The defaults
are never reached on the keys the pipeline uses. -/
def repo_lookup (repos : List Repo) (rid : String) : Option Repo :=
  repos.reverse.find? (fun r => r.id == rid)

def members_by_repo (repos : List Repo) (rid : String) : List String :=
  match repo_lookup repos rid with
  | some r => r.members
  | none => []

def webhook_by_repo (repos : List Repo) (rid : String) : String :=
  match repo_lookup repos rid with
  | some r => r.webhook
  | none => ""

def name_by_repo (repos : List Repo) (rid : String) : String :=
  match repo_lookup repos rid with
  | some r => r.name
  | none => ""

/-- The cleanup pass of `create_status_reports`, viewed per dictionary key:
`filtered_issues repos today issues rid` is the list the loop appends to
`filtered_issues[rid]`, in scan order — the classified forms of the fetched
records whose repository id is `rid`, where `rid` is registered, whose
author is not in the member set of `rid`, and which the classifier does not
drop. -/
def filtered_issues (repos : List Repo) (today : Int) (issues : List RawIssue)
    (rid : String) : List ClassifiedIssue :=
  issues.filterMap (fun issue =>
    let repo := issue_repo issue.repository_url
    let author := issue.user_login
    if repo == rid && (repo_ids repos).contains repo &&
        !((members_by_repo repos repo).contains author)
    then format_issue today issue
    else none)

/-- One element of the `status` list: display name, webhook, the run
metadata (`TIME_INTERVAL`, the joined filter labels, the run date) and the
rendered body from `format_by_repo`. -/
def mk_status_entry (repos : List Repo) (today : Int) (run_date : String)
    (issues : List RawIssue) (rid : String) : StatusEntry :=
  { repo := name_by_repo repos rid
    webhook := webhook_by_repo repos rid
    interval := toString TIME_INTERVAL
    filters := String.intercalate (", ") FILTER_LABELS
    date := run_date
    prs := format_by_repo (filtered_issues repos today issues rid) }

/-- The `status` list assembled by `create_status_reports`: one entry per
registered repository id whose filtered record list is non-empty, in
registry order. -/
def status_entries (repos : List Repo) (today : Int) (run_date : String)
    (issues : List RawIssue) : List StatusEntry :=
  (repo_ids repos).filterMap (fun rid =>
    if (filtered_issues repos today issues rid).isEmpty then none
    else some (mk_status_entry repos today run_date issues rid))

/-- The delivery loop of `create_status_reports`: each entry is posted to
its webhook inside a try/except whose failure branch logs and continues, so
every entry is attempted whatever the outcomes of the earlier posts.  The
outcome of each attempt is modelled by the oracle `post`; the result pairs
every entry with the outcome of its attempt, in order. -/
def deliver (post : StatusEntry → Bool) : List StatusEntry → List (StatusEntry × Bool)
  | [] => []
  | e :: rest => (e, post e) :: deliver post rest

/-- The registered repository ids whose filtered record list is non-empty,
in registry order: exactly the keys for which `create_status_reports`
appends a status entry. -/
def surviving_repo_ids (repos : List Repo) (today : Int) (issues : List RawIssue) :
    List String :=
  (repo_ids repos).filter (fun rid => !(filtered_issues repos today issues rid).isEmpty)

/-- A search backend whose first response reports 150 records, serving 100
records on page 1, the remaining 50 on page 2 and empty pages afterwards. -/
def api150 : Nat → SearchResponse Nat := fun page =>
  if page == 1 then { total_count := 150, items := List.replicate 100 0 }
  else if page == 2 then { total_count := 150, items := List.replicate 50 0 }
  else { total_count := 150, items := [] }

/-- A search backend whose every response reports 50 records and serves all
50 of them. -/
def api50 : Nat → SearchResponse Nat := fun _ =>
  { total_count := 50, items := List.replicate 50 0 }

end DailyUpdate

namespace DailyUpdate

/-- Removing a list element the extraction function sends to `none` does
not change the `filterMap`. -/
theorem filterMap_middle_none {α β : Type} (f : α → Option β) (xs ys : List α) (i : α)
    (h : f i = none) : (xs ++ i :: ys).filterMap f = (xs ++ ys).filterMap f := by
  simp [List.filterMap_append, List.filterMap_cons, h]

/-- A `filterMap` that either keeps `f b` or drops the element is the map
of `f` over the kept elements. -/
theorem filterMap_ite_none_eq_map_filter {β γ : Type} (l : List β) (p : β → Bool)
    (f : β → γ) :
    l.filterMap (fun b => if p b then none else some (f b)) =
      (l.filter (fun b => !p b)).map f := by
  induction l with
  | nil => rfl
  | cons x xs ih => by_cases h : p x <;> simp [List.filterMap_cons, List.filter_cons, h, ih]

/-- The delivery loop attempts every entry in order: the first components
of the attempt list are the entry list itself, whatever the outcomes. -/
theorem deliver_map_fst (post : StatusEntry → Bool) :
    ∀ l : List StatusEntry, (deliver post l).map Prod.fst = l := by
  intro l
  induction l with
  | nil => rfl
  | cons e rest ih => simp [deliver, ih]

/-- Every entry of the list is attempted by the delivery loop. -/
theorem mem_deliver (post : StatusEntry → Bool) (e : StatusEntry) :
    ∀ l : List StatusEntry, e ∈ l → (e, post e) ∈ deliver post l := by
  intro l
  induction l with
  | nil => intro h; cases h
  | cons x rest ih =>
    intro h
    rcases List.mem_cons.mp h with h | h
    · subst h; exact List.mem_cons_self _ _
    · exact List.mem_cons_of_mem _ (ih h)

/-- Claim C1 (refutation of the stop condition): against `api150`, whose
first response reports `total_count = 150`, the fetcher accumulates all 150
records after its second request, yet it issues a third search request (it
stops only when page 3 comes back empty), because the loop bound is
`max total_count 900 = 900` rather than `total_count`.  Under the claimed
stop condition, page requests would cease as soon as the accumulated count
reached 150, i.e. after exactly 2 requests. -/
theorem get_issues_overscans_past_total_count :
    (get_issues api150).1.length = (api150 1).total_count ∧
      (get_issues api150).2 = 3 := by
  decide

/-- Claim C8: when the first response reports `total_count = 50`, which
does not exceed the page size 100, the fetcher returns that single page of
items and issues exactly one request. -/
theorem get_issues_single_request_at_total_50 {α : Type} (api : Nat → SearchResponse α)
    (h : (api 1).total_count = 50) :
    get_issues api = ((api 1).items, 1) := by
  simp [get_issues, h]

/-- Witness for claim C8 at the concrete backend `api50`. -/
theorem get_issues_single_request_at_total_50_witness :
    get_issues api50 = ((api50 1).items, 1) :=
  get_issues_single_request_at_total_50 api50 rfl

/-- Claim C5: a title longer than 50 characters is truncated to exactly 50
characters ending in the two-character ellipsis, and a title of at most 50
characters is returned unchanged. -/
theorem truncate_item_at_50 (s : String) :
    (50 < s.length →
      (truncate_item s 50).length = 50 ∧ ∃ t, truncate_item s 50 = t ++ "..") ∧
    (s.length ≤ 50 → truncate_item s 50 = s) := by
  constructor
  · intro h
    have e : truncate_item s 50 = String.mk (s.data.take 48) ++ ".." := by
      simp only [truncate_item]
      rw [if_pos h]
    have hd : s.length = s.data.length := rfl
    have htake : (String.mk (s.data.take 48)).length = 48 := by
      show (s.data.take 48).length = 48
      rw [List.length_take]
      omega
    constructor
    · rw [e, String.length_append, htake]
      rfl
    · exact ⟨String.mk (s.data.take 48), e⟩
  · intro h
    simp only [truncate_item]
    rw [if_neg (by omega)]

/-- Witness for claim C5: a 60-character title is cut to 50 characters and
a 3-character title is untouched. -/
theorem truncate_item_at_50_witness :
    (truncate_item (String.mk (List.replicate 60 (Char.ofNat 97))) 50).length = 50 ∧
      truncate_item ("abc") 50 = "abc" :=
  ⟨((truncate_item_at_50 (String.mk (List.replicate 60 (Char.ofNat 97)))).1
      (by decide)).1,
    (truncate_item_at_50 ("abc")).2 (by decide)⟩

/-- The classified pull request of claim C6: comment count 1, the sentinel
assignee, zero days open and zero days since update. -/
def c6_example : ClassifiedIssue :=
  { repo := "r", title := "t", is_pr := true, is_approved := false,
    assignee := "unassigned", comments := 1, open_since := 0,
    last_updated := 0, labels := "", link := "l" }

/-- Claim C6: on `c6_example` the alert string contains the staleness
marker, the unassigned marker and the low-engagement marker, and does not
contain the follow-up marker. -/
theorem pr_alerts_c6_example :
    (Char.ofNat 0x1F534 ∈ (pr_alerts c6_example).data) ∧
      (Char.ofNat 0x23F0 ∈ (pr_alerts c6_example).data) ∧
      (Char.ofNat 0x1F464 ∈ (pr_alerts c6_example).data) ∧
      ¬(Char.ofNat 0x1F914 ∈ (pr_alerts c6_example).data) := by
  decide

/-- Claim C2: a raw record carrying the pull-request marker whose review
list contains an APPROVED review is dropped by the classifier, contributes
nothing to any filtered per-repository list, and leaves the assembled
status entries (hence every rendered digest body) exactly as if the record
had not been fetched — independently of its author, assignee, labels,
comments or age. -/
theorem approved_pr_never_in_digest (repos : List Repo) (today : Int)
    (run_date : String) (xs ys : List RawIssue) (i : RawIssue)
    (hpr : i.pull_request = true) (happ : ("APPROVED") ∈ i.reviews) :
    format_issue today i = none ∧
    filtered_issues repos today (xs ++ i :: ys) = filtered_issues repos today (xs ++ ys) ∧
    status_entries repos today run_date (xs ++ i :: ys) =
      status_entries repos today run_date (xs ++ ys) := by
  have happr : pr_is_approved i.reviews = true := by
    simp only [pr_is_approved, List.any_eq_true]
    exact ⟨"APPROVED", happ, by simp⟩
  have h0 : format_issue today i = none := by
    simp [format_issue, is_pr, hpr, happr]
  have h1 : filtered_issues repos today (xs ++ i :: ys) =
      filtered_issues repos today (xs ++ ys) := by
    funext rid
    simp only [filtered_issues]
    apply filterMap_middle_none
    simp [h0]
  have h2 : status_entries repos today run_date (xs ++ i :: ys) =
      status_entries repos today run_date (xs ++ ys) := by
    simp only [status_entries, mk_status_entry, h1]
  exact ⟨h0, h1, h2⟩

/-- The approved pull request used as the witness input for claim C2. -/
def c2_example : RawIssue :=
  { url := "u/7", repository_url := "x/r", html_url := "h", title := "t",
    user_login := "alice", assignees := [], assignee := none, labels := [],
    comments := 3, created_at := 0, updated_at := 0, pull_request := true,
    reviews := [("COMMENTED"), ("APPROVED")] }

/-- Witness for claim C2: the classifier drops `c2_example`. -/
theorem approved_pr_never_in_digest_witness :
    format_issue 0 c2_example = none :=
  (approved_pr_never_in_digest [] 0 ("") [] [] c2_example rfl (by decide)).1

/-- Claim C3: a fetched record whose repository id is not registered, or
whose author login is in the member set of its repository, contributes
nothing to any filtered per-repository list and leaves the assembled status
entries exactly as if the record had not been fetched. -/
theorem member_or_unregistered_excluded (repos : List Repo) (today : Int)
    (run_date : String) (xs ys : List RawIssue) (i : RawIssue)
    (h : (repo_ids repos).contains (issue_repo i.repository_url) = false ∨
        i.user_login ∈ members_by_repo repos (issue_repo i.repository_url)) :
    filtered_issues repos today (xs ++ i :: ys) = filtered_issues repos today (xs ++ ys) ∧
    status_entries repos today run_date (xs ++ i :: ys) =
      status_entries repos today run_date (xs ++ ys) := by
  have h1 : filtered_issues repos today (xs ++ i :: ys) =
      filtered_issues repos today (xs ++ ys) := by
    funext rid
    simp only [filtered_issues]
    apply filterMap_middle_none
    rcases h with hc | hm
    · simp
      intro _ hmem _
      exact absurd hmem (by simpa using hc)
    · simp
      intro _ _ hnm
      exact absurd hm (by simpa using hnm)
  have h2 : status_entries repos today run_date (xs ++ i :: ys) =
      status_entries repos today run_date (xs ++ ys) := by
    simp only [status_entries, mk_status_entry, h1]
  exact ⟨h1, h2⟩

/-- The registry used by the witness inputs: one repository with id `r`,
whose member set contains `alice`. -/
def c3_repos : List Repo :=
  [{ id := "r", members := [("alice")], webhook := "w", name := "R" }]

/-- A record in repository `r` authored by the team member `alice`. -/
def c3_example : RawIssue :=
  { url := "u/9", repository_url := "x/r", html_url := "h", title := "t",
    user_login := "alice", assignees := [], assignee := none, labels := [],
    comments := 0, created_at := 0, updated_at := 0, pull_request := false,
    reviews := [] }

/-- Witness for claim C3: with `c3_example` as the only fetched record, the
status entries equal those of a run that fetched nothing. -/
theorem member_or_unregistered_excluded_witness :
    status_entries c3_repos 0 ("d") [c3_example] = status_entries c3_repos 0 ("d") [] :=
  (member_or_unregistered_excluded c3_repos 0 ("d") [] [] c3_example
    (Or.inr (by decide))).2

/-- Invariant of the accumulation loop of `format_by_repo`: starting from a
body within the cap, the loop keeps the body within the cap, and the final
body is the starting body followed by the complete rendered blocks of the
first `k` pull requests of the remaining records, for some `k` — the loop
either consumes every pull request or breaks at the first block that would
overflow, discarding the rest. -/
theorem build_prs_txt_spec (l : List ClassifiedIssue) :
    ∀ acc : String, acc.length ≤ MSG_MAX_LENGTH →
      (build_prs_txt l acc).length ≤ MSG_MAX_LENGTH ∧
      ∃ k, build_prs_txt l acc =
        acc ++ concat_blocks ((l.filter (fun i => i.is_pr)).take k) := by
  induction l with
  | nil =>
    intro acc h
    refine ⟨by simpa [build_prs_txt] using h, 0, ?_⟩
    simp [build_prs_txt, concat_blocks]
  | cons i rest ih =>
    intro acc h
    by_cases hpr : i.is_pr
    · by_cases hov : (render_pr_block i).length + acc.length > MSG_MAX_LENGTH
      · have e : build_prs_txt (i :: rest) acc = acc := by
          simp [build_prs_txt, hpr, hov]
        refine ⟨by rw [e]; exact h, 0, ?_⟩
        simp [e, concat_blocks]
      · have e : build_prs_txt (i :: rest) acc =
            build_prs_txt rest (acc ++ render_pr_block i) := by
          simp [build_prs_txt, hpr, hov]
        have h' : (acc ++ render_pr_block i).length ≤ MSG_MAX_LENGTH := by
          rw [String.length_append]
          omega
        obtain ⟨hlen, k, hk⟩ := ih (acc ++ render_pr_block i) h'
        refine ⟨by rw [e]; exact hlen, k + 1, ?_⟩
        rw [e, hk]
        simp only [List.filter_cons, hpr, if_pos, List.take_succ_cons, concat_blocks,
          List.foldr_cons, String.append_assoc]
    · have e : build_prs_txt (i :: rest) acc = build_prs_txt rest acc := by
        simp [build_prs_txt, hpr]
      obtain ⟨hlen, k, hk⟩ := ih acc h
      refine ⟨by rw [e]; exact hlen, k, ?_⟩
      rw [e, hk]
      simp only [List.filter_cons, hpr]
      rfl

/-- Claim C4: the rendered per-repository body never exceeds the 40,000
character cap, and it is always the concatenation of the complete rendered
blocks of an initial run of the pull requests in sorted order — rendering
stops at the first block that would overflow, discarding the remaining
records whole, so no partial block is ever emitted. -/
theorem format_by_repo_capped (issues : List ClassifiedIssue) :
    (format_by_repo issues).length ≤ MSG_MAX_LENGTH ∧
    ∃ k, format_by_repo issues =
      concat_blocks (((sorted_issues_by_assignee issues).filter
        (fun i => i.is_pr)).take k) := by
  obtain ⟨h1, k, hk⟩ :=
    build_prs_txt_spec (sorted_issues_by_assignee issues) ("") (by simp)
  refine ⟨h1, k, ?_⟩
  calc format_by_repo issues
      = build_prs_txt (sorted_issues_by_assignee issues) ("") := rfl
    _ = ("") ++ concat_blocks (((sorted_issues_by_assignee issues).filter
          (fun i => i.is_pr)).take k) := hk
    _ = concat_blocks (((sorted_issues_by_assignee issues).filter
          (fun i => i.is_pr)).take k) := String.empty_append _

/-- The comparison induced by the sort key is transitive. -/
theorem issue_key_le_trans (a b c : ClassifiedIssue) :
    issue_key_le a b → issue_key_le b c → issue_key_le a c := by
  simp only [issue_key_le, Bool.or_eq_true, Bool.and_eq_true, decide_eq_true_eq]
  intro hab hbc
  rcases hab with hab | ⟨hab, hab2⟩
  · rcases hbc with hbc | ⟨hbc, _⟩
    · exact Or.inl (lt_trans hab hbc)
    · exact Or.inl (hbc ▸ hab)
  · rcases hbc with hbc | ⟨hbc, hbc2⟩
    · exact Or.inl (hab ▸ hbc)
    · refine Or.inr ⟨hab.trans hbc, ?_⟩
      revert hab2 hbc2
      cases a.is_pr <;> cases b.is_pr <;> cases c.is_pr <;> simp

/-- The comparison induced by the sort key is total. -/
theorem issue_key_le_total (a b : ClassifiedIssue) :
    issue_key_le a b || issue_key_le b a := by
  simp only [issue_key_le, Bool.or_eq_true, Bool.and_eq_true, decide_eq_true_eq]
  rcases lt_trichotomy a.assignee b.assignee with h | h | h
  · exact Or.inl (Or.inl h)
  · cases hpa : a.is_pr
    · exact Or.inl (Or.inr ⟨h, by simp⟩)
    · cases hpb : b.is_pr
      · exact Or.inr (Or.inr ⟨h.symm, by simp⟩)
      · exact Or.inl (Or.inr ⟨h, by simp⟩)
  · exact Or.inr (Or.inl h)

/-- Claim C7: `format_by_repo` orders the records with the stable
`sorted` of Python under the key (assignee string, is-pull-request flag):
the sorted list is pairwise nondecreasing in that key, it is a permutation
of the input, and any two records with equal keys keep their relative
order. -/
theorem sorted_issues_sorted_and_stable (l : List ClassifiedIssue) :
    (sorted_issues_by_assignee l).Pairwise (fun a b => issue_key_le a b = true) ∧
    (sorted_issues_by_assignee l).Perm l ∧
    (∀ a b : ClassifiedIssue, a.assignee = b.assignee → a.is_pr = b.is_pr →
      [a, b].Sublist l → [a, b].Sublist (sorted_issues_by_assignee l)) := by
  refine ⟨?_, ?_, ?_⟩
  · exact List.sorted_mergeSort issue_key_le_trans issue_key_le_total l
  · exact List.mergeSort_perm l issue_key_le
  · intro a b h1 h2 hsub
    have hab : issue_key_le a b = true := by
      simp only [issue_key_le, Bool.or_eq_true, Bool.and_eq_true, decide_eq_true_eq]
      refine Or.inr ⟨h1, ?_⟩
      rw [h2]
      cases b.is_pr <;> simp
    exact List.pair_sublist_mergeSort issue_key_le_trans issue_key_le_total hab hsub

/-- Two classified records sharing the sort key, differing in their
titles, used as the witness input for claim C7. -/
def c7_first : ClassifiedIssue :=
  { repo := "r", title := "a", is_pr := false, is_approved := false,
    assignee := "z", comments := 0, open_since := 0, last_updated := 0,
    labels := "", link := "la" }

def c7_second : ClassifiedIssue :=
  { repo := "r", title := "b", is_pr := false, is_approved := false,
    assignee := "z", comments := 0, open_since := 0, last_updated := 0,
    labels := "", link := "lb" }

/-- Witness for claim C7: the two equal-key records keep their relative
order through the sort. -/
theorem sorted_issues_sorted_and_stable_witness :
    [c7_first, c7_second].Sublist (sorted_issues_by_assignee [c7_first, c7_second]) :=
  (sorted_issues_sorted_and_stable [c7_first, c7_second]).2.2 c7_first c7_second
    rfl rfl (List.Sublist.refl _)

/-- Claim C9: the status list holds one entry for each registered
repository id whose filtered record list is non-empty, in registry order
(so a repository with zero surviving records contributes no entry and is
never posted to); under the registry invariant that ids are distinct, every
registered id contributes exactly one surviving id when it has a surviving
record and none otherwise; and the delivery loop attempts every assembled
entry whatever the outcomes of the other posts. -/
theorem one_entry_per_surviving_repo_and_isolated_delivery (repos : List Repo)
    (today : Int) (run_date : String) (issues : List RawIssue)
    (hnd : (repo_ids repos).Nodup) :
    status_entries repos today run_date issues =
      (surviving_repo_ids repos today issues).map
        (mk_status_entry repos today run_date issues) ∧
    (∀ rid ∈ repo_ids repos,
      (surviving_repo_ids repos today issues).count rid =
        if (filtered_issues repos today issues rid).isEmpty then 0 else 1) ∧
    (∀ post, (deliver post (status_entries repos today run_date issues)).map Prod.fst =
      status_entries repos today run_date issues) := by
  refine ⟨?_, ?_, fun post => deliver_map_fst post _⟩
  · simp only [status_entries, surviving_repo_ids]
    exact filterMap_ite_none_eq_map_filter (repo_ids repos) _ _
  · intro rid hrid
    by_cases he : (filtered_issues repos today issues rid).isEmpty
    · rw [if_pos he]
      refine List.count_eq_zero_of_not_mem ?_
      intro hmem
      have := (List.mem_filter.mp hmem).2
      simp [he] at this
    · rw [if_neg he]
      refine List.count_eq_one_of_mem (hnd.filter _) ?_
      exact List.mem_filter.mpr ⟨hrid, by simp [he]⟩

/-- The registry used by the witness inputs of claims C9 and C10: one
repository with id `r` and an empty member set. -/
def c9_repos : List Repo :=
  [{ id := "r", members := [], webhook := "w", name := "R" }]

/-- A surviving plain issue in repository `r` by an outside author, used as
the witness input for claims C9 and C10. -/
def c9_example : RawIssue :=
  { url := "u/3", repository_url := "x/r", html_url := "h", title := "t",
    user_login := "carol", assignees := [], assignee := none, labels := [],
    comments := 0, created_at := 0, updated_at := 0, pull_request := false,
    reviews := [] }

/-- Witness for claim C9 on the one-repository registry. -/
theorem one_entry_per_surviving_repo_and_isolated_delivery_witness :
    status_entries c9_repos 0 ("d") [c9_example] =
      (surviving_repo_ids c9_repos 0 [c9_example]).map
        (mk_status_entry c9_repos 0 ("d") [c9_example]) :=
  (one_entry_per_surviving_repo_and_isolated_delivery c9_repos 0 ("d") [c9_example]
    (by decide)).1

/-- The loop of `format_by_repo` appends nothing when no record of the list
is a pull request. -/
theorem build_prs_txt_no_pr (l : List ClassifiedIssue) :
    ∀ acc : String, (∀ i ∈ l, i.is_pr = false) → build_prs_txt l acc = acc := by
  induction l with
  | nil => intro acc _; rfl
  | cons i rest ih =>
    intro acc h
    have hi : i.is_pr = false := h i (List.mem_cons_self _ _)
    have e : build_prs_txt (i :: rest) acc = build_prs_txt rest acc := by
      simp [build_prs_txt, hi]
    rw [e]
    exact ih acc (fun j hj => h j (List.mem_cons_of_mem _ hj))

/-- Claim C10: a registered repository whose surviving records are all
plain issues still yields a status entry, that entry renders the empty
pull-request body (plain issues never contribute text to the body), and the
entry is attempted by the delivery loop. -/
theorem issue_only_repo_delivers_empty_body (repos : List Repo) (today : Int)
    (run_date : String) (issues : List RawIssue) (rid : String)
    (hmem : rid ∈ repo_ids repos)
    (hne : filtered_issues repos today issues rid ≠ [])
    (hnp : ∀ c ∈ filtered_issues repos today issues rid, c.is_pr = false) :
    format_by_repo (filtered_issues repos today issues rid) = "" ∧
    (mk_status_entry repos today run_date issues rid).prs = "" ∧
    mk_status_entry repos today run_date issues rid ∈
      status_entries repos today run_date issues ∧
    (∀ post, (mk_status_entry repos today run_date issues rid,
        post (mk_status_entry repos today run_date issues rid)) ∈
      deliver post (status_entries repos today run_date issues)) := by
  have hfmt : format_by_repo (filtered_issues repos today issues rid) = "" := by
    show build_prs_txt (sorted_issues_by_assignee
      (filtered_issues repos today issues rid)) ("") = ""
    refine build_prs_txt_no_pr _ ("") ?_
    intro i hi
    refine hnp i ?_
    exact List.mem_mergeSort.mp hi
  have hent : mk_status_entry repos today run_date issues rid ∈
      status_entries repos today run_date issues := by
    simp only [status_entries]
    refine List.mem_filterMap.mpr ⟨rid, hmem, ?_⟩
    rw [if_neg ?_]
    intro hc
    exact hne (List.isEmpty_iff.mp hc)
  refine ⟨hfmt, hfmt, hent, fun post => mem_deliver post _ _ hent⟩

/-- Witness for claim C10: the digest of the issue-only repository is the
entry with the empty body, and it is present in the status list. -/
theorem issue_only_repo_delivers_empty_body_witness :
    mk_status_entry c9_repos 0 ("d") [c9_example] ("r") ∈
      status_entries c9_repos 0 ("d") [c9_example] :=
  (issue_only_repo_delivers_empty_body c9_repos 0 ("d") [c9_example] ("r")
    (by decide) (by decide) (by decide)).2.2.1

end DailyUpdate
